import Mathlib

/-!
# money-ticker: earnings model and shift clock

A shallow embedding of `main.go`: the wage configuration, the earnings
computation `calculateAndUpdateTitle`, the input loop `getUserInput`, the two
clock entry modes and the start-up selection of `main`, followed by the
properties proved about them.

Conventions of the embedding.

* Go `int` is `Int` (machine overflow is not modelled).
* Go `float64` is `Float64` for the wage and the amounts: a finite value
  carries its exact rational value (the amounts are read over exact
  rationals), and the three special values `+Inf`, `-Inf` and `NaN` are kept,
  because `strconv.ParseFloat` can return them.
* `Duration.Seconds`, whose result is converted to the integer counter, is
  computed with float64 rounding (`float64Round`: round to nearest, ties to
  even, 53 significant bits).
* `time.Time` and `time.Duration` are integers counting nanoseconds; the zero
  `time.Time{}` is `0`.
* The goroutines of the two clock modes are a step function over the events
  the goroutine can receive.
-/

namespace MoneyTicker

/-! ## float64 -/

/-- Value of a Go `float64`. Finite values are exact rationals; signed zeros
are not distinguished. -/
inductive Float64 where
  | fin (q : ℚ)
  | posInf
  | negInf
  | nan
  deriving DecidableEq

namespace Float64

/-- Product of an infinity (`pos` tells its sign) with the finite value `a`. -/
def scaleInf (pos : Bool) (a : ℚ) : Float64 :=
  if a = 0 then nan else if decide (0 < a) = pos then posInf else negInf

/-- Go `x * y` on float64. -/
def mul : Float64 → Float64 → Float64
  | nan, _ => nan
  | _, nan => nan
  | fin a, fin b => fin (a * b)
  | fin a, posInf => scaleInf true a
  | posInf, fin a => scaleInf true a
  | fin a, negInf => scaleInf false a
  | negInf, fin a => scaleInf false a
  | posInf, posInf => posInf
  | negInf, negInf => posInf
  | posInf, negInf => negInf
  | negInf, posInf => negInf

/-- Go `x + y` on float64. -/
def add : Float64 → Float64 → Float64
  | nan, _ => nan
  | _, nan => nan
  | fin a, fin b => fin (a + b)
  | posInf, negInf => nan
  | negInf, posInf => nan
  | posInf, _ => posInf
  | _, posInf => posInf
  | negInf, _ => negInf
  | _, negInf => negInf

/-- Go `x / y` on float64. The program divides only by the constant 3600. -/
def div : Float64 → Float64 → Float64
  | nan, _ => nan
  | _, nan => nan
  | fin a, fin b =>
    if b = 0 then (if a = 0 then nan else if 0 < a then posInf else negInf)
    else fin (a / b)
  | fin _, posInf => fin 0
  | fin _, negInf => fin 0
  | posInf, fin b => if 0 ≤ b then posInf else negInf
  | negInf, fin b => if 0 ≤ b then negInf else posInf
  | posInf, posInf => nan
  | posInf, negInf => nan
  | negInf, posInf => nan
  | negInf, negInf => nan

/-- Go `x <= y` on float64: every comparison with NaN is false. -/
def le : Float64 → Float64 → Bool
  | nan, _ => false
  | _, nan => false
  | fin a, fin b => decide (a ≤ b)
  | negInf, _ => true
  | _, posInf => true
  | _, _ => false

/-- Go conversion `float64(n)` of an `int`. -/
def ofInt (n : Int) : Float64 := fin (n : ℚ)

instance : Mul Float64 := ⟨mul⟩
instance : Add Float64 := ⟨add⟩
instance : Div Float64 := ⟨div⟩

end Float64

/-! ## Configuration and timer -/

/-- The struct `WorkConfig`. -/
structure WorkConfig where
  RegularSeconds : Int
  OvertimeRate : Float64
  NightStart : Int
  NightEnd : Int

/-- Constant `RegularWorkingSeconds`. -/
def RegularWorkingSeconds : Int := 32400

/-- Constant `OvertimeRate` (1.25). -/
def OvertimeRate : Float64 := .fin (5 / 4)

/-- Constant `NightStartHour`. -/
def NightStartHour : Int := 22

/-- Constant `NightEndHour`. -/
def NightEndHour : Int := 6

/-- Function `NewWorkConfig`. -/
def NewWorkConfig : WorkConfig :=
  { RegularSeconds := RegularWorkingSeconds
    OvertimeRate := OvertimeRate
    NightStart := NightStartHour
    NightEnd := NightEndHour }

/-- The struct `WorkTimer` (field names as in the source). The `quit` menu item
is represented by the `quitClicked` event of the clock. -/
structure WorkTimer where
  startTime : Int
  hourlyWage : Float64
  elpasedSeconds : Int
  deriving DecidableEq

/-- Function `NewWorkTimer`. -/
def NewWorkTimer (startTime : Int) (houryWage : Float64) : WorkTimer :=
  { startTime := startTime, hourlyWage := houryWage, elpasedSeconds := 0 }

/-- What `systray.SetTitle` was last called with: a literal text, or the
arguments `title` and `totalEarnings` of `fmt.Sprintf("%s ¥%.2f", ...)`. -/
inductive Title where
  | text (s : String)
  | earnings (title : String) (totalEarnings : Float64)
  deriving DecidableEq

/-! ## Earnings model -/

/-- The local `isNightTime` of `calculateAndUpdateTitle`, for the hour
`nowTime` read from the wall clock. -/
def isNightTime (c : WorkConfig) (nowTime : Int) : Bool :=
  decide (nowTime ≥ c.NightStart) || decide (nowTime < c.NightEnd)

/-- Method `calculateAndUpdateTitle`, with the hour `time.Now().Local().Hour()`
as the argument `nowTime`. The result is the new title; `none` is the
`default` branch, which logs and leaves the title as it is. -/
def calculateAndUpdateTitle (w : WorkTimer) (nowTime : Int) : Option Title :=
  let workConfig := NewWorkConfig
  let isNight := isNightTime workConfig nowTime
  let hourlyWagePerSeconds := w.hourlyWage / Float64.fin 3600
  let overTimeSeconds := w.elpasedSeconds - workConfig.RegularSeconds
  if w.elpasedSeconds < workConfig.RegularSeconds ∧ isNight = false then
    some (.earnings "現在の稼ぎ"
      (Float64.ofInt w.elpasedSeconds * hourlyWagePerSeconds * Float64.fin (8 / 9)))
  else if workConfig.RegularSeconds ≤ w.elpasedSeconds ∧ isNight = false then
    let regularEarnings :=
      Float64.ofInt workConfig.RegularSeconds * hourlyWagePerSeconds * Float64.fin (8 / 9)
    let overtimeEarnings :=
      Float64.ofInt overTimeSeconds * hourlyWagePerSeconds * Float64.fin (5 / 4)
    some (.earnings "残業ブースト中🔥" (regularEarnings + overtimeEarnings))
  else if w.elpasedSeconds < workConfig.RegularSeconds ∧ isNight = true then
    some (.earnings "深夜勤務中🌙"
      (Float64.ofInt w.elpasedSeconds * hourlyWagePerSeconds * Float64.fin (5 / 4)
        * Float64.fin (8 / 9)))
  else if workConfig.RegularSeconds ≤ w.elpasedSeconds ∧ isNight = true then
    let regularEarnings :=
      Float64.ofInt workConfig.RegularSeconds * hourlyWagePerSeconds * Float64.fin (8 / 9)
    let overtimeEarnings :=
      Float64.ofInt overTimeSeconds * hourlyWagePerSeconds * Float64.fin (3 / 2)
    some (.earnings "深夜残業ブースト中🔥🌙" (regularEarnings + overtimeEarnings))
  else
    none

/-- The earnings rule in the words of the specification (section 4.1), over
exact rationals: the label and the amount for `elapsedSeconds`, an hourly
wage and the current hour, with `regularSeconds = 32400` and the night window
`hour >= 22 OR hour < 6`. -/
def specCompute (elapsedSeconds : Int) (hourlyWage : ℚ) (currentHour : Int) : String × ℚ :=
  let perSecondWage := hourlyWage / 3600
  let isNight : Bool := decide (currentHour ≥ 22 ∨ currentHour < 6)
  let overtimeSeconds := elapsedSeconds - 32400
  match decide (elapsedSeconds < 32400), isNight with
  | true, false => ("現在の稼ぎ", (elapsedSeconds : ℚ) * perSecondWage * (8 / 9))
  | false, false =>
    ("残業ブースト中🔥", 32400 * perSecondWage * (8 / 9) + (overtimeSeconds : ℚ) * perSecondWage * 1.25)
  | true, true => ("深夜勤務中🌙", (elapsedSeconds : ℚ) * perSecondWage * 1.25 * (8 / 9))
  | false, true =>
    ("深夜残業ブースト中🔥🌙",
      32400 * perSecondWage * (8 / 9) + (overtimeSeconds : ℚ) * perSecondWage * 1.5)

/-! ## Input -/

/-- What `getUserInput` did: the lines it printed, the two values it returned,
and whether it returned from the last `return startTime, hourlyWage` (`true`)
or from one of the two `return time.Time{}, 0` after a failed `Scan`
(`false`). -/
structure UserInput where
  printed : List String
  startTime : Int
  hourlyWage : Float64
  completed : Bool
  deriving DecidableEq

/-- The first `for` loop of `getUserInput` over the lines the scanner still
has; `Scan` is false when none is left. `parseTime text` is the result of
`time.ParseInLocation` on today's date followed by `text` (`none` for an
error). Returns the printed lines and, unless the stream ended, the parsed
time with the remaining lines. -/
def startTimeLoop (parseTime : String → Option Int) :
    List String → List String × Option (Int × List String)
  | [] => (["入力の読み取りに失敗しました"], none)
  | text :: rest =>
    match parseTime text with
    | none =>
      let r := startTimeLoop parseTime rest
      ("時間の形式が正しくありません (例: 09:30)" :: r.1, r.2)
    | some t => ([], some (t, rest))

/-- The second `for` loop of `getUserInput`, with the start time already
read. `parseFloat text` is the result of `strconv.ParseFloat(text, 64)`
(`none` for an error). -/
def hourlyWageLoop (parseFloat : String → Option Float64) (startTime : Int) :
    List String → UserInput
  | [] =>
    { printed := ["入力の読み取りに失敗しました"], startTime := 0, hourlyWage := .fin 0,
      completed := false }
  | text :: rest =>
    match parseFloat text with
    | none =>
      let r := hourlyWageLoop parseFloat startTime rest
      { r with printed := "数値で入力してください" :: r.printed }
    | some hourlyWage =>
      if Float64.le hourlyWage (.fin 0) then
        let r := hourlyWageLoop parseFloat startTime rest
        { r with printed := "時給は0より大きい値を入力してください" :: r.printed }
      else
        { printed := [], startTime := startTime, hourlyWage := hourlyWage, completed := true }

/-- Function `getUserInput` over the lines of standard input. -/
def getUserInput (parseTime : String → Option Int) (parseFloat : String → Option Float64)
    (lines : List String) : UserInput :=
  match startTimeLoop parseTime lines with
  | (out, none) =>
    { printed := "勤務開始時間 (HH:MM)" :: out, startTime := 0, hourlyWage := .fin 0,
      completed := false }
  | (out, some (startTime, rest)) =>
    let r := hourlyWageLoop parseFloat startTime rest
    { r with
      printed := "勤務開始時間 (HH:MM)" :: out
        ++ ["ーーーーーーーーーーーーーーーーーーーー", "時給(円)"] ++ r.printed }

/-! ## Shift clock -/

/-- Where the background goroutine of the clock is: not launched, blocked on
`<-timer.C`, in the `select` loop, or returned after `systray.Quit()`. -/
inductive Phase where
  | Uninitialized
  | WaitingForStart
  | Accruing
  | Terminated
  deriving DecidableEq

/-- What the goroutine can be handed: the one-shot timer fires, the ticker
fires (with the wall-clock hour read in that iteration), or the quit menu item
is clicked. -/
inductive Event where
  | timerFired
  | tick (hour : Int)
  | quitClicked
  deriving DecidableEq

/-- State of the running program: the timer, the goroutine, the title shown,
and whether a click on quit is waiting on `ClickedCh` for a receiver. -/
structure Sys where
  timer : WorkTimer
  phase : Phase
  title : Title
  pendingQuit : Bool
  deriving DecidableEq

/-- The smallest `time.Duration`. -/
def minDuration : Int := -(2 ^ 63)

/-- The largest `time.Duration`. -/
def maxDuration : Int := 2 ^ 63 - 1

/-- Library `time.Until(t)` when the clock reads `now`: the difference, or the
nearest representable duration when it does not fit. -/
def timeUntil (t now : Int) : Int :=
  if t - now < minDuration then minDuration
  else if maxDuration < t - now then maxDuration
  else t - now

/-- The integer nearest to `x`, the even one of the two when `x` lies half way
between them. -/
def roundHalfEven (x : ℚ) : Int :=
  if x - ⌊x⌋ < 1 / 2 then ⌊x⌋
  else if 1 / 2 < x - ⌊x⌋ then ⌊x⌋ + 1
  else if ⌊x⌋ % 2 = 0 then ⌊x⌋ else ⌊x⌋ + 1

/-- The float64 nearest to the real number `x` (round to nearest, ties to
even): `x` is rounded to a multiple of `2 ^ (e - 52)`, where
`2 ^ e ≤ |x| < 2 ^ (e + 1)`. The exponent range of float64 is not modelled;
the values rounded by `durationSeconds` lie between `10^-9` and `10^10` in
absolute value. -/
def float64Round (x : ℚ) : ℚ :=
  if x = 0 then 0
  else (roundHalfEven (x / 2 ^ (Int.log 2 |x| - 52)) : ℚ) * 2 ^ (Int.log 2 |x| - 52)

/-- Library `Duration.Seconds`:
`sec := d / Second; nsec := d % Second; return float64(sec) + float64(nsec)/1e9`,
each conversion and operation rounded to float64. -/
def durationSeconds (d : Int) : ℚ :=
  let sec := Int.tdiv d 1000000000
  let nsec := Int.tmod d 1000000000
  float64Round (float64Round (sec : ℚ) + float64Round (float64Round (nsec : ℚ) / 1000000000))

/-- Library `math.Abs` on a finite value. -/
def mathAbs (x : ℚ) : ℚ := |x|

/-- Go conversion `int(x)` of a finite float64: the fraction is discarded
(truncation towards zero). -/
def intOfFloat (x : ℚ) : Int := if 0 ≤ x then ⌊x⌋ else ⌈x⌉

/-- Method `updateStatusForStartedWork`: the catch-up, then the goroutine is
in its `select` loop. -/
def updateStatusForStartedWork (s : Sys) (duration : Int) : Sys :=
  { s with
    timer := { s.timer with
      elpasedSeconds := s.timer.elpasedSeconds + intOfFloat (mathAbs (durationSeconds duration)) }
    phase := .Accruing }

/-- Method `updateStatusForNotStartedWork`: the title, then the goroutine
blocks on the timer alone. -/
def updateStatusForNotStartedWork (s : Sys) (_duration : Int) : Sys :=
  { s with title := .text "勤務開始前", phase := .WaitingForStart }

/-- One event handed to the program. `buffered` tells whether `ClickedCh` (a
channel of the systray library) keeps a click that no goroutine is receiving;
the library drops it (`buffered = false`).

* `WaitingForStart`: only `<-timer.C` is received; when it fires the goroutine
  enters the `select` loop, where a click that was kept is received at once.
* `Accruing`: a tick increments the counter and calls
  `calculateAndUpdateTitle`; a click calls `systray.Quit()` and returns.
* otherwise no goroutine is receiving. -/
def step (buffered : Bool) (s : Sys) : Event → Sys
  | .timerFired =>
    match s.phase with
    | .WaitingForStart =>
      if s.pendingQuit then { s with phase := .Terminated, pendingQuit := false }
      else { s with phase := .Accruing }
    | _ => s
  | .tick hour =>
    match s.phase with
    | .Accruing =>
      let w := { s.timer with elpasedSeconds := s.timer.elpasedSeconds + 1 }
      match calculateAndUpdateTitle w hour with
      | some t => { s with timer := w, title := t }
      | none => { s with timer := w }
    | _ => s
  | .quitClicked =>
    match s.phase with
    | .Accruing => { s with phase := .Terminated }
    | .WaitingForStart => { s with pendingQuit := buffered }
    | _ => s

/-- The program after a sequence of events. -/
def run (buffered : Bool) (s : Sys) (events : List Event) : Sys :=
  events.foldl (step buffered) s

/-- The `onReady` callback of `main`, with `duration` the value of
`time.Until(startTime)`. -/
def onReady (startTime : Int) (hourylWage : Float64) (duration : Int) : Sys :=
  let s : Sys :=
    { timer := NewWorkTimer startTime hourylWage
      phase := .Uninitialized
      title := .text "💴 読み込み中"
      pendingQuit := false }
  if 0 < duration then updateStatusForNotStartedWork s duration
  else if duration < 0 then updateStatusForStartedWork s duration
  else s

/-- Function `main` for the lines of standard input, with the clock reading
`now` when the tray is ready. -/
def main (parseTime : String → Option Int) (parseFloat : String → Option Float64)
    (lines : List String) (now : Int) : Sys :=
  let input := getUserInput parseTime parseFloat lines
  onReady input.startTime input.hourlyWage (timeUntil input.startTime now)

/-! ## Arithmetic on finite values -/

namespace Float64

@[simp] theorem fin_mul_fin (a b : ℚ) : fin a * fin b = fin (a * b) := rfl

@[simp] theorem fin_add_fin (a b : ℚ) : fin a + fin b = fin (a + b) := rfl

@[simp] theorem fin_div_3600 (a : ℚ) : fin a / fin 3600 = fin (a / 3600) := by
  show div (fin a) (fin 3600) = _
  simp [div]

@[simp] theorem ofInt_eq (n : Int) : ofInt n = fin (n : ℚ) := rfl

end Float64

/-- The night window of the default configuration, spelled out. -/
theorem isNightTime_default (h : Int) :
    isNightTime NewWorkConfig h = decide (h ≥ 22 ∨ h < 6) := by
  simp [isNightTime, NewWorkConfig, NightStartHour, NightEndHour, Bool.decide_or]

/-- The regular period of the default configuration. -/
theorem regularSeconds_default : NewWorkConfig.RegularSeconds = 32400 := rfl

/-! ## Earnings model: properties -/

/-- C1: with the default configuration and a finite wage `w` read as an exact
rational, `calculateAndUpdateTitle` renders, for every integer
`elapsedSeconds` `e` and every hour `h` (in particular every `h` in 0..23),
exactly the label and the amount of the specification's four-branch rule
`specCompute`; `e = 36000`, `w = 3600`, `h = 23` gives 34200 with the
night-overtime label; and on the regular day branch the amount is
`e * (w/3600 * 8/9)`, linear in `e` with slope `w/3600 * 8/9`. -/
theorem calculateAndUpdateTitle_eq_specCompute (st e : Int) (w : ℚ) (h : Int) :
    calculateAndUpdateTitle ⟨st, .fin w, e⟩ h
        = some (.earnings (specCompute e w h).1 (.fin (specCompute e w h).2))
      ∧ calculateAndUpdateTitle ⟨st, .fin 3600, 36000⟩ 23
        = some (.earnings "深夜残業ブースト中🔥🌙" (.fin 34200))
      ∧ (e < 32400 → 6 ≤ h → h < 22 →
          calculateAndUpdateTitle ⟨st, .fin w, e⟩ h
            = some (.earnings "現在の稼ぎ" (.fin ((e : ℚ) * (w / 3600 * (8 / 9)))))) := by
  refine ⟨?_, ?_, ?_⟩
  · by_cases he : e < 32400 <;> by_cases hn : (h ≥ 22 ∨ h < 6) <;>
      simp [calculateAndUpdateTitle, specCompute, isNightTime_default, regularSeconds_default,
        he, hn] <;> norm_num
    all_goals omega
  · simp [calculateAndUpdateTitle, isNightTime_default, regularSeconds_default]
    norm_num
  · intro he h6 h22
    have hn : ¬ (h ≥ 22 ∨ h < 6) := by omega
    simp [calculateAndUpdateTitle, isNightTime_default, regularSeconds_default, he, hn]
    ring

/-- C2: continuity at the day seam. At `elapsedSeconds = 32400` and a day
hour the code takes its overtime-day branch, and the amount it renders is the
value of the regular-day formula `32400 * (w/3600) * (8/9)`; for `w = 3600` at
hour 12 it is 28800. -/
theorem day_seam_continuous (st : Int) (w : ℚ) (h : Int)
    (hday : isNightTime NewWorkConfig h = false) :
    calculateAndUpdateTitle ⟨st, .fin w, NewWorkConfig.RegularSeconds⟩ h
        = some (.earnings "残業ブースト中🔥" (.fin (32400 * (w / 3600) * (8 / 9))))
      ∧ calculateAndUpdateTitle ⟨st, .fin 3600, 32400⟩ 12
        = some (.earnings "残業ブースト中🔥" (.fin 28800)) := by
  constructor
  · simp [calculateAndUpdateTitle, hday, regularSeconds_default]
  · simp [calculateAndUpdateTitle, isNightTime_default, regularSeconds_default]
    norm_num

/-- Witness of C2 at wage 1200 and hour 9. -/
theorem day_seam_continuous_witness :
    calculateAndUpdateTitle ⟨0, .fin 1200, NewWorkConfig.RegularSeconds⟩ 9
        = some (.earnings "残業ブースト中🔥" (.fin (32400 * (1200 / 3600) * (8 / 9))))
      ∧ calculateAndUpdateTitle ⟨0, .fin 3600, 32400⟩ 12
        = some (.earnings "残業ブースト中🔥" (.fin 28800)) :=
  day_seam_continuous 0 1200 9 (by decide)

/-- C3: with `NightStart = 22` and `NightEnd = 6`, an hour in 0..23 is night
exactly when it is one of 22, 23, 0, 1, 2, 3, 4, 5, and is not night exactly
when it is in 6..21. -/
theorem isNightTime_wraparound (h : Int) (h0 : 0 ≤ h) (h23 : h ≤ 23) :
    NewWorkConfig.NightStart = 22 ∧ NewWorkConfig.NightEnd = 6
      ∧ (isNightTime NewWorkConfig h = true ↔ h ∈ [22, 23, 0, 1, 2, 3, 4, 5])
      ∧ (isNightTime NewWorkConfig h = false ↔ 6 ≤ h ∧ h ≤ 21) := by
  refine ⟨rfl, rfl, ?_, ?_⟩
  · rw [isNightTime_default]
    simp only [decide_eq_true_eq, List.mem_cons, List.mem_singleton, List.not_mem_nil, or_false]
    omega
  · rw [isNightTime_default]
    simp only [decide_eq_false_iff_not]
    omega

/-- Witness of C3 at hour 23. -/
theorem isNightTime_wraparound_witness :
    NewWorkConfig.NightStart = 22 ∧ NewWorkConfig.NightEnd = 6
      ∧ (isNightTime NewWorkConfig 23 = true ↔ (23 : Int) ∈ [22, 23, 0, 1, 2, 3, 4, 5])
      ∧ (isNightTime NewWorkConfig 23 = false ↔ (6 : Int) ≤ 23 ∧ (23 : Int) ≤ 21) :=
  isNightTime_wraparound 23 (by decide) (by decide)

/-- The `default` branch of `calculateAndUpdateTitle` is never taken. -/
theorem calculateAndUpdateTitle_isSome (w : WorkTimer) (h : Int) :
    (calculateAndUpdateTitle w h).isSome = true := by
  have hlt : w.elpasedSeconds < 32400 ∨ 32400 ≤ w.elpasedSeconds := lt_or_le _ _
  unfold calculateAndUpdateTitle
  simp only [regularSeconds_default]
  cases hn : isNightTime NewWorkConfig h <;> rcases hlt with he | he
  · simp [he]
  · simp [he, not_lt.mpr he]
  · simp [he]
  · simp [he, not_lt.mpr he]

/-- C4: for every timer (any counter, any wage) and every hour, exactly one of
the four `case` conditions of `calculateAndUpdateTitle` holds, and the call
renders a title: the `default` branch is not taken. -/
theorem calculateAndUpdateTitle_cases_exhaustive (w : WorkTimer) (h : Int) :
    (calculateAndUpdateTitle w h).isSome = true
      ∧ ((w.elpasedSeconds < NewWorkConfig.RegularSeconds ∧ isNightTime NewWorkConfig h = false)
        ∨ (NewWorkConfig.RegularSeconds ≤ w.elpasedSeconds ∧ isNightTime NewWorkConfig h = false)
        ∨ (w.elpasedSeconds < NewWorkConfig.RegularSeconds ∧ isNightTime NewWorkConfig h = true)
        ∨ (NewWorkConfig.RegularSeconds ≤ w.elpasedSeconds ∧ isNightTime NewWorkConfig h = true))
      ∧ ¬ ((w.elpasedSeconds < NewWorkConfig.RegularSeconds ∧ isNightTime NewWorkConfig h = false)
        ∧ (NewWorkConfig.RegularSeconds ≤ w.elpasedSeconds ∧ isNightTime NewWorkConfig h = false))
      ∧ ¬ ((w.elpasedSeconds < NewWorkConfig.RegularSeconds ∧ isNightTime NewWorkConfig h = false)
        ∧ (w.elpasedSeconds < NewWorkConfig.RegularSeconds ∧ isNightTime NewWorkConfig h = true))
      ∧ ¬ ((w.elpasedSeconds < NewWorkConfig.RegularSeconds ∧ isNightTime NewWorkConfig h = false)
        ∧ (NewWorkConfig.RegularSeconds ≤ w.elpasedSeconds ∧ isNightTime NewWorkConfig h = true))
      ∧ ¬ ((NewWorkConfig.RegularSeconds ≤ w.elpasedSeconds ∧ isNightTime NewWorkConfig h = false)
        ∧ (w.elpasedSeconds < NewWorkConfig.RegularSeconds ∧ isNightTime NewWorkConfig h = true))
      ∧ ¬ ((NewWorkConfig.RegularSeconds ≤ w.elpasedSeconds ∧ isNightTime NewWorkConfig h = false)
        ∧ (NewWorkConfig.RegularSeconds ≤ w.elpasedSeconds ∧ isNightTime NewWorkConfig h = true))
      ∧ ¬ ((w.elpasedSeconds < NewWorkConfig.RegularSeconds ∧ isNightTime NewWorkConfig h = true)
        ∧ (NewWorkConfig.RegularSeconds ≤ w.elpasedSeconds ∧ isNightTime NewWorkConfig h = true)) := by
  rw [regularSeconds_default]
  have hlt : w.elpasedSeconds < 32400 ∨ 32400 ≤ w.elpasedSeconds := lt_or_le _ _
  refine ⟨calculateAndUpdateTitle_isSome w h, ?_, ?_, ?_, ?_, ?_, ?_, ?_⟩
  · cases hn : isNightTime NewWorkConfig h <;> rcases hlt with he | he <;> simp [he]
  all_goals
    cases hn : isNightTime NewWorkConfig h <;> simp

/-- C10: at a night hour and a positive wage `w`, the amount rendered at
`elapsedSeconds = 32400` (night-overtime branch) is strictly smaller than the
amount rendered at `elapsedSeconds = 32399` (regular-night branch): the
displayed amount is not monotone in `elapsedSeconds`. -/
theorem night_seam_drop (st : Int) (w : ℚ) (h : Int) (hw : 0 < w)
    (hnight : isNightTime NewWorkConfig h = true) :
    ∃ before after : ℚ,
      calculateAndUpdateTitle ⟨st, .fin w, 32399⟩ h
          = some (.earnings "深夜勤務中🌙" (.fin before))
        ∧ calculateAndUpdateTitle ⟨st, .fin w, 32400⟩ h
          = some (.earnings "深夜残業ブースト中🔥🌙" (.fin after))
        ∧ before = 32399 * (w / 3600) * 1.25 * (8 / 9)
        ∧ after = 32400 * (w / 3600) * (8 / 9)
        ∧ after < before := by
  refine ⟨32399 * (w / 3600) * 1.25 * (8 / 9), 32400 * (w / 3600) * (8 / 9), ?_, ?_, rfl, rfl, ?_⟩
  · simp [calculateAndUpdateTitle, hnight, regularSeconds_default]
    norm_num
  · simp [calculateAndUpdateTitle, hnight, regularSeconds_default]
  · linarith

/-- Witness of C10 at wage 3600 and hour 23. -/
theorem night_seam_drop_witness :
    ∃ before after : ℚ,
      calculateAndUpdateTitle ⟨0, .fin 3600, 32399⟩ 23
          = some (.earnings "深夜勤務中🌙" (.fin before))
        ∧ calculateAndUpdateTitle ⟨0, .fin 3600, 32400⟩ 23
          = some (.earnings "深夜残業ブースト中🔥🌙" (.fin after))
        ∧ before = 32399 * (3600 / 3600) * 1.25 * (8 / 9)
        ∧ after = 32400 * (3600 / 3600) * (8 / 9)
        ∧ after < before :=
  night_seam_drop 0 3600 23 (by norm_num) (by decide)

/-! ## Shift clock: properties -/

/-- Rounding to the nearest integer moves a number by at most one half. -/
theorem roundHalfEven_err (x : ℚ) : |(roundHalfEven x : ℚ) - x| ≤ 1 / 2 := by
  have h1 : (⌊x⌋ : ℚ) ≤ x := Int.floor_le x
  have h2 : x < ⌊x⌋ + 1 := Int.lt_floor_add_one x
  unfold roundHalfEven
  rw [abs_le]
  split_ifs with ha hb hc
  · constructor <;> linarith
  · push_cast; constructor <;> linarith
  · constructor <;> linarith
  · push_cast; constructor <;> linarith

/-- An integer closer than one half to `x` is what `x` rounds to. -/
theorem roundHalfEven_eq_of (x : ℚ) (n : Int) (h : |x - n| < 1 / 2) : roundHalfEven x = n := by
  rw [abs_lt] at h
  have h1 : (⌊x⌋ : ℚ) ≤ x := Int.floor_le x
  have h2 : x < ⌊x⌋ + 1 := Int.lt_floor_add_one x
  have key : ∀ m : Int, ((m : ℚ) < (n : ℚ) + 1 / 2 + 1 / 2) → m ≤ n := by
    intro m hm
    have : (m : ℚ) < ((n + 1 : Int) : ℚ) := by push_cast; linarith
    have := Int.cast_lt.mp this
    omega
  have key2 : ∀ m : Int, ((n : ℚ) - 1 / 2 - 1 / 2 < (m : ℚ)) → n ≤ m := by
    intro m hm
    have : ((n - 1 : Int) : ℚ) < (m : ℚ) := by push_cast; linarith
    have := Int.cast_lt.mp this
    omega
  unfold roundHalfEven
  split_ifs with ha hb hc
  · -- x - f < 1/2 : f ≤ x < n + 1/2, and f > x - 1/2 > n - 1
    have a1 := key ⌊x⌋ (by linarith)
    have a2 := key2 ⌊x⌋ (by linarith)
    omega
  · have a1 := key (⌊x⌋ + 1) (by push_cast; linarith)
    have a2 := key2 (⌊x⌋ + 1) (by push_cast; linarith)
    omega
  · exfalso
    have hx : x - ⌊x⌋ = 1 / 2 := le_antisymm (not_lt.mp hb) (not_lt.mp ha)
    have a1 := key ⌊x⌋ (by linarith)
    have a2 := key2 (⌊x⌋ + 1) (by push_cast; linarith)
    have : n = ⌊x⌋ ∨ n = ⌊x⌋ + 1 := by omega
    rcases this with h' | h' <;> rw [h'] at h <;> push_cast at h <;> linarith [h.1, h.2]
  · exfalso
    have hx : x - ⌊x⌋ = 1 / 2 := le_antisymm (not_lt.mp hb) (not_lt.mp ha)
    have a1 := key ⌊x⌋ (by linarith)
    have a2 := key2 (⌊x⌋ + 1) (by push_cast; linarith)
    have : n = ⌊x⌋ ∨ n = ⌊x⌋ + 1 := by omega
    rcases this with h' | h' <;> rw [h'] at h <;> push_cast at h <;> linarith [h.1, h.2]

/-- The binary exponent of a positive number is fixed by the two powers of two
around it. -/
theorem log_two_eq (a : ℚ) (e : Int) (ha : 0 < a) (h1 : (2 : ℚ) ^ e ≤ a) (h2 : a < (2 : ℚ) ^ (e + 1)) :
    Int.log 2 a = e := by
  have l1 : e ≤ Int.log 2 a := (Int.zpow_le_iff_le_log (by norm_num) ha).mp (by exact_mod_cast h1)
  have l2 : Int.log 2 a < e + 1 := (Int.lt_zpow_iff_log_lt (by norm_num) ha).mp (by exact_mod_cast h2)
  omega

/-- Evaluation of `float64Round`: with the exponent `e` of `x` and an integer
`n` closer than one half to `x / 2 ^ (e - 52)`, the result is `n * 2 ^ (e - 52)`. -/
theorem float64Round_eq_of (x : ℚ) (e n : Int) (h1 : (2 : ℚ) ^ e ≤ |x|) (h2 : |x| < (2 : ℚ) ^ (e + 1))
    (hn : |x / 2 ^ (e - 52) - n| < 1 / 2) : float64Round x = n * 2 ^ (e - 52) := by
  have hpos : 0 < |x| := lt_of_lt_of_le (by positivity) h1
  have hx : x ≠ 0 := abs_pos.mp hpos
  unfold float64Round
  rw [if_neg hx, log_two_eq |x| e hpos h1 h2, roundHalfEven_eq_of _ n hn]

/-- Rounding error: below `2 ^ k` in absolute value, `float64Round` moves a
number by at most `2 ^ (k - 54)`. -/
theorem float64Round_err (x : ℚ) (k : Int) (hk : |x| < (2 : ℚ) ^ k) :
    |float64Round x - x| ≤ (2 : ℚ) ^ (k - 54) := by
  by_cases hx : x = 0
  · subst hx
    simp [float64Round]
    positivity
  have hpos : 0 < |x| := abs_pos.mpr hx
  have hle : (2 : ℚ) ^ (Int.log 2 |x|) ≤ |x| := by
    have := Int.zpow_log_le_self (b := 2) (by norm_num) hpos
    exact_mod_cast this
  have hlt : Int.log 2 |x| < k := by
    have : (2 : ℚ) ^ (Int.log 2 |x|) < (2 : ℚ) ^ k := lt_of_le_of_lt hle hk
    exact (zpow_lt_zpow_iff_right₀ (by norm_num : (1 : ℚ) < 2)).mp this
  have hu : (0 : ℚ) < 2 ^ (Int.log 2 |x| - 52) := by positivity
  unfold float64Round
  rw [if_neg hx]
  have herr := roundHalfEven_err (x / 2 ^ (Int.log 2 |x| - 52))
  have heq : (roundHalfEven (x / 2 ^ (Int.log 2 |x| - 52)) : ℚ) * 2 ^ (Int.log 2 |x| - 52) - x
      = ((roundHalfEven (x / 2 ^ (Int.log 2 |x| - 52)) : ℚ) - x / 2 ^ (Int.log 2 |x| - 52))
        * 2 ^ (Int.log 2 |x| - 52) := by
    field_simp
  rw [heq, abs_mul, abs_of_pos hu]
  have hstep : (2 : ℚ) ^ (Int.log 2 |x| - 52) ≤ 2 ^ (k - 53) :=
    zpow_le_zpow_right₀ (by norm_num) (by omega)
  have h54 : (2 : ℚ) ^ (k - 53) = 2 * 2 ^ (k - 54) := by
    rw [show k - 53 = (k - 54) + 1 by ring, zpow_add_one₀ (by norm_num)]
    ring
  calc |(roundHalfEven (x / 2 ^ (Int.log 2 |x| - 52)) : ℚ) - x / 2 ^ (Int.log 2 |x| - 52)|
        * 2 ^ (Int.log 2 |x| - 52)
      ≤ 1 / 2 * 2 ^ (k - 53) := by
        apply mul_le_mul herr hstep (le_of_lt hu) (by norm_num)
    _ = 2 ^ (k - 54) := by rw [h54]; ring

/-- An integer below `2 ^ 53` in absolute value is a float64: the conversion
is exact. -/
theorem float64Round_intCast (n : Int) (hn : |n| < 2 ^ 53) : float64Round (n : ℚ) = n := by
  by_cases h0 : n = 0
  · subst h0; simp [float64Round]
  have hq : (n : ℚ) ≠ 0 := by exact_mod_cast h0
  have hpos : 0 < |(n : ℚ)| := abs_pos.mpr hq
  have h1 : (1 : ℚ) ≤ |(n : ℚ)| := by
    have : (1 : Int) ≤ |n| := Int.one_le_abs h0
    exact_mod_cast this
  have h53 : |(n : ℚ)| < (2 : ℚ) ^ (53 : Int) := by
    have : ((|n| : Int) : ℚ) < ((2 ^ 53 : Int) : ℚ) := Int.cast_lt.mpr hn
    push_cast at this
    exact_mod_cast this
  have hlo : 0 ≤ Int.log 2 |(n : ℚ)| :=
    (Int.zpow_le_iff_le_log (by norm_num) hpos).mp (by simpa using h1)
  have hhi : Int.log 2 |(n : ℚ)| < 53 :=
    (Int.lt_zpow_iff_log_lt (by norm_num) hpos).mp (by exact_mod_cast h53)
  obtain ⟨j, hj⟩ : ∃ j : ℕ, (52 : Int) - Int.log 2 |(n : ℚ)| = j :=
    ⟨(52 - Int.log 2 |(n : ℚ)|).toNat, by omega⟩
  have he : Int.log 2 |(n : ℚ)| - 52 = -(j : Int) := by omega
  unfold float64Round
  rw [if_neg hq, he]
  have hdiv : (n : ℚ) / 2 ^ (-(j : Int)) = ((n * 2 ^ j : Int) : ℚ) := by
    rw [zpow_neg, zpow_natCast]
    push_cast
    field_simp
  rw [hdiv, roundHalfEven_eq_of _ (n * 2 ^ j) (by simp)]
  rw [zpow_neg, zpow_natCast]
  push_cast
  field_simp

/-- Zero is a float64. -/
theorem float64Round_zero : float64Round 0 = 0 := by simp [float64Round]

/-- Truncated quotient and remainder by 10^9, in absolute value, are the
quotient and remainder of `|d|`. -/
theorem tdiv_tmod_abs (d : Int) :
    |Int.tdiv d 1000000000| = |d| / 1000000000 ∧ |Int.tmod d 1000000000| = |d| % 1000000000 := by
  have hdec := Int.tdiv_add_tmod d 1000000000
  rcases le_or_lt 0 d with hd | hd
  · have h1 : Int.tdiv d 1000000000 = d / 1000000000 := Int.tdiv_eq_ediv hd (by norm_num)
    have h2 : Int.tmod d 1000000000 = d % 1000000000 := Int.tmod_eq_emod hd (by norm_num)
    rw [h1, h2, abs_of_nonneg hd, abs_of_nonneg (by omega), abs_of_nonneg (by omega)]
    exact ⟨rfl, rfl⟩
  · have h0 : Int.tdiv (-d) 1000000000 = (-d) / 1000000000 :=
      Int.tdiv_eq_ediv (by omega) (by norm_num)
    have h1 : Int.tdiv d 1000000000 = -((-d) / 1000000000) := by
      rw [← h0, Int.neg_tdiv, neg_neg]
    have h2 : Int.tmod d 1000000000 = -((-d) % 1000000000) := by
      rw [h1] at hdec
      omega
    rw [h1, h2, abs_of_neg hd, abs_of_nonpos (by omega), abs_of_nonpos (by omega)]
    constructor <;> omega

/-- The catch-up of the started mode is the whole seconds of `|duration|` when
the seconds stay below `2 ^ k` and the fraction of a second is zero or keeps
away from 0 and 1 by more than the rounding error `2 ^ (k - 54) + 2 ^ (-54)`. -/
theorem catchUp_eq_of_margin (d k : Int)
    (hq : ((|d| / 1000000000 : Int) : ℚ) + 1 ≤ 2 ^ k)
    (h53 : |d| / 1000000000 < 2 ^ 53)
    (hm : |d| % 1000000000 = 0
      ∨ ((2 : ℚ) ^ (k - 54) + 2 ^ (-54 : Int) < ((|d| % 1000000000 : Int) : ℚ) / 1000000000
        ∧ ((|d| % 1000000000 : Int) : ℚ) / 1000000000
            < 1 - ((2 : ℚ) ^ (k - 54) + 2 ^ (-54 : Int)))) :
    intOfFloat (mathAbs (durationSeconds d)) = |d| / 1000000000 := by
  obtain ⟨hs, hn⟩ := tdiv_tmod_abs d
  have hdec := Int.tdiv_add_tmod d 1000000000
  have hm0 : 0 ≤ |d| % 1000000000 := Int.emod_nonneg _ (by norm_num)
  have hm1 : |d| % 1000000000 < 1000000000 := Int.emod_lt_of_pos _ (by norm_num)
  have hq0 : 0 ≤ |d| / 1000000000 := Int.ediv_nonneg (abs_nonneg d) (by norm_num)
  have hsec : float64Round ((Int.tdiv d 1000000000 : Int) : ℚ) = (Int.tdiv d 1000000000 : Int) :=
    float64Round_intCast _ (by rw [hs]; exact h53)
  have hnsec : float64Round ((Int.tmod d 1000000000 : Int) : ℚ) = (Int.tmod d 1000000000 : Int) :=
    float64Round_intCast _ (by rw [hn]; omega)
  have hnn : (0 : ℚ) ≤ mathAbs (durationSeconds d) := abs_nonneg _
  unfold intOfFloat
  rw [if_pos hnn]
  unfold mathAbs durationSeconds
  simp only
  rw [hsec, hnsec]
  rcases hm with hm | ⟨hlo, hhi⟩
  · have hz : Int.tmod d 1000000000 = 0 := by
      have : |Int.tmod d 1000000000| = 0 := by rw [hn, hm]
      exact abs_eq_zero.mp this
    rw [hz]
    simp only [Int.cast_zero, zero_div, float64Round_zero, add_zero]
    rw [hsec]
    have : |((Int.tdiv d 1000000000 : Int) : ℚ)| = ((|d| / 1000000000 : Int) : ℚ) := by
      rw [← hs]; push_cast; rfl
    rw [this]
    exact Int.floor_intCast _
  · -- abbreviations
    set sec : Int := Int.tdiv d 1000000000 with hsecdef
    set nsec : Int := Int.tmod d 1000000000 with hnsecdef
    set q : Int := |d| / 1000000000 with hqdef
    set m : Int := |d| % 1000000000 with hmdef
    have hfrac : |(nsec : ℚ) / 1000000000| < (2 : ℚ) ^ (0 : Int) := by
      rw [abs_div, abs_of_pos (by norm_num : (0 : ℚ) < 1000000000)]
      have : |(nsec : ℚ)| = (m : ℚ) := by rw [← hn]; push_cast; rfl
      rw [this, zpow_zero, div_lt_one (by norm_num)]
      exact_mod_cast hm1
    have hr := float64Round_err _ 0 hfrac
    have hδ : (0 : ℚ) < 2 ^ (k - 54) := by positivity
    -- exact value and its absolute value
    have hval : |(sec : ℚ) + (nsec : ℚ) / 1000000000| = (q : ℚ) + (m : ℚ) / 1000000000 := by
      have h1 : (sec : ℚ) + (nsec : ℚ) / 1000000000 = (d : ℚ) / 1000000000 := by
        have : ((1000000000 * sec + nsec : Int) : ℚ) = (d : ℚ) := by rw [hdec]
        push_cast at this
        rw [← this]; field_simp; ring
      have h2 : ((|d| : Int) : ℚ) = 1000000000 * (q : ℚ) + (m : ℚ) := by
        have := Int.ediv_add_emod |d| 1000000000
        rw [← this]; push_cast; ring
      rw [h1, abs_div, abs_of_pos (by norm_num : (0 : ℚ) < 1000000000)]
      have h3 : |(d : ℚ)| = ((|d| : Int) : ℚ) := by push_cast; rfl
      rw [h3, h2]; field_simp; ring
    set r : ℚ := float64Round ((nsec : ℚ) / 1000000000) with hrdef
    have hx1 : |((sec : ℚ) + r) - ((sec : ℚ) + (nsec : ℚ) / 1000000000)| ≤ 2 ^ (0 - 54 : Int) := by
      have : ((sec : ℚ) + r) - ((sec : ℚ) + (nsec : ℚ) / 1000000000)
          = r - (nsec : ℚ) / 1000000000 := by ring
      rw [this]; exact hr
    have h054 : (2 : ℚ) ^ (0 - 54 : Int) = 2 ^ (-54 : Int) := by norm_num
    rw [h054] at hx1
    have hxabs : |(sec : ℚ) + r| < 2 ^ k := by
      have := abs_sub_abs_le_abs_sub ((sec : ℚ) + r) ((sec : ℚ) + (nsec : ℚ) / 1000000000)
      rw [hval] at this
      have hle : |(sec : ℚ) + r| ≤ (q : ℚ) + (m : ℚ) / 1000000000 + 2 ^ (-54 : Int) := by linarith
      linarith
    have hS := float64Round_err _ k hxabs
    have htot : |float64Round ((sec : ℚ) + r) - ((sec : ℚ) + (nsec : ℚ) / 1000000000)|
        ≤ 2 ^ (k - 54) + 2 ^ (-54 : Int) := by
      have := abs_sub_le (float64Round ((sec : ℚ) + r)) ((sec : ℚ) + r)
        ((sec : ℚ) + (nsec : ℚ) / 1000000000)
      linarith
    have habs := abs_abs_sub_abs_le_abs_sub (float64Round ((sec : ℚ) + r))
      ((sec : ℚ) + (nsec : ℚ) / 1000000000)
    rw [hval] at habs
    have hb := abs_le.mp (le_trans habs htot)
    rw [Int.floor_eq_iff]
    constructor <;> linarith [hb.1, hb.2]

/-- The catch-up of the started mode is the whole seconds of `|duration|` for
every duration shorter than 2^24 seconds. -/
theorem catchUp_eq (d : Int) (hd : |d| < 16777216000000000) :
    intOfFloat (mathAbs (durationSeconds d)) = |d| / 1000000000 := by
  have hm0 : 0 ≤ |d| % 1000000000 := Int.emod_nonneg _ (by norm_num)
  have hm1 : |d| % 1000000000 < 1000000000 := Int.emod_lt_of_pos _ (by norm_num)
  have hq1 : |d| / 1000000000 + 1 ≤ 16777216 := by omega
  apply catchUp_eq_of_margin d 24
  · have : ((|d| / 1000000000 + 1 : Int) : ℚ) ≤ ((16777216 : Int) : ℚ) := Int.cast_le.mpr hq1
    push_cast at this
    norm_num
    linarith
  · omega
  · by_cases hz : |d| % 1000000000 = 0
    · left; exact hz
    · right
      have h1 : (1 : ℚ) ≤ ((|d| % 1000000000 : Int) : ℚ) := by
        have : (1 : Int) ≤ |d| % 1000000000 := by omega
        exact_mod_cast this
      have h2 : ((|d| % 1000000000 : Int) : ℚ) ≤ 999999999 := by
        have : |d| % 1000000000 ≤ (999999999 : Int) := by omega
        exact_mod_cast this
      constructor
      · rw [lt_div_iff₀ (by norm_num)]
        norm_num
        linarith
      · rw [div_lt_iff₀ (by norm_num)]
        norm_num
        linarith

/-- The catch-up for the smallest duration. -/
theorem catchUp_minDuration :
    intOfFloat (mathAbs (durationSeconds (-(2 ^ 63)))) = 9223372036 := by
  have h := catchUp_eq_of_margin (-(2 ^ 63)) 34 (by norm_num) (by norm_num)
    (Or.inr (by norm_num))
  rw [h]
  norm_num

/-- The catch-up for one nanosecond less than 33554432 seconds: the sum
`float64(sec) + float64(nsec)/1e9` rounds up to 33554432. -/
theorem catchUp_rounds_up :
    intOfFloat (mathAbs (durationSeconds (-33554431999999999))) = 33554432 := by
  have hsec : Int.tdiv (-33554431999999999) 1000000000 = -33554431 := by decide
  have hnsec : Int.tmod (-33554431999999999) 1000000000 = -999999999 := by decide
  have e1 : float64Round ((-33554431 : Int) : ℚ) = -33554431 := by
    rw [float64Round_intCast _ (by norm_num)]; norm_num
  have e2 : float64Round ((-999999999 : Int) : ℚ) = -999999999 := by
    rw [float64Round_intCast _ (by norm_num)]; norm_num
  have e3 : float64Round ((-999999999 : ℚ) / 1000000000)
      = ((-9007199245733793 : Int) : ℚ) * 2 ^ ((-1 : Int) - 52) :=
    float64Round_eq_of _ (-1) _ (by norm_num [abs_of_neg]) (by norm_num [abs_of_neg])
      (by rw [abs_lt]; norm_num)
  have e4 : float64Round ((-33554431 : ℚ) + ((-9007199245733793 : Int) : ℚ) * 2 ^ ((-1 : Int) - 52))
      = ((-9007199254740992 : Int) : ℚ) * 2 ^ ((24 : Int) - 52) :=
    float64Round_eq_of _ 24 _ (by norm_num [abs_of_neg]) (by norm_num [abs_of_neg])
      (by rw [abs_lt]; norm_num)
  unfold durationSeconds
  simp only [hsec, hnsec]
  rw [e1, e2, e3, e4]
  unfold mathAbs intOfFloat
  norm_num

/-- The catch-up is never negative. -/
theorem catchUp_nonneg (d : Int) : 0 ≤ intOfFloat (mathAbs (durationSeconds d)) := by
  have hnn : (0 : ℚ) ≤ mathAbs (durationSeconds d) := abs_nonneg _
  rw [intOfFloat, if_pos hnn]
  exact Int.floor_nonneg.mpr hnn

/-- A step leaves the counter as it is or adds one to it. -/
theorem step_elpasedSeconds (b : Bool) (s : Sys) (ev : Event) :
    (step b s ev).timer.elpasedSeconds = s.timer.elpasedSeconds
      ∨ (step b s ev).timer.elpasedSeconds = s.timer.elpasedSeconds + 1 := by
  cases ev with
  | timerFired =>
    left
    unfold step
    cases s.phase <;> simp
    split <;> rfl
  | tick hour =>
    unfold step
    cases s.phase <;> simp
    split <;> simp
  | quitClicked =>
    left
    unfold step
    cases s.phase <;> rfl

/-- A non-negative counter stays non-negative along any run. -/
theorem run_elpasedSeconds_nonneg (b : Bool) (events : List Event) :
    ∀ s : Sys, 0 ≤ s.timer.elpasedSeconds → 0 ≤ (run b s events).timer.elpasedSeconds := by
  induction events with
  | nil => intro s hs; exact hs
  | cons ev rest ih =>
    intro s hs
    show 0 ≤ (run b (step b s ev) rest).timer.elpasedSeconds
    apply ih
    rcases step_elpasedSeconds b s ev with h | h <;> omega

/-- The counter right after start-up is not negative. -/
theorem onReady_elpasedSeconds_nonneg (st : Int) (wage : Float64) (d : Int) :
    0 ≤ (onReady st wage d).timer.elpasedSeconds := by
  unfold onReady
  simp only
  split
  · simp [updateStatusForNotStartedWork, NewWorkTimer]
  · split
    · have := catchUp_nonneg d
      simp [updateStatusForStartedWork, NewWorkTimer, this]
    · simp [NewWorkTimer]

/-- C5: from a timer made by `NewWorkTimer`, after the start-up selection for
any `duration` and any sequence of events, the counter is not negative; no
event decreases it (each leaves it or adds one); and every tick received by the
accrual loop adds exactly one. -/
theorem elpasedSeconds_invariant (b : Bool) (st : Int) (wage : Float64) (d : Int)
    (events : List Event) :
    (NewWorkTimer st wage).elpasedSeconds = 0
      ∧ 0 ≤ (run b (onReady st wage d) events).timer.elpasedSeconds
      ∧ (∀ ev : Event,
          (run b (onReady st wage d) events).timer.elpasedSeconds
            ≤ (step b (run b (onReady st wage d) events) ev).timer.elpasedSeconds)
      ∧ (∀ hour : Int, (run b (onReady st wage d) events).phase = .Accruing →
          (step b (run b (onReady st wage d) events) (.tick hour)).timer.elpasedSeconds
            = (run b (onReady st wage d) events).timer.elpasedSeconds + 1) := by
  refine ⟨rfl, ?_, ?_, ?_⟩
  · exact run_elpasedSeconds_nonneg b events _ (onReady_elpasedSeconds_nonneg st wage d)
  · intro ev
    rcases step_elpasedSeconds b (run b (onReady st wage d) events) ev with h | h <;> omega
  · intro hour hph
    unfold step
    simp only [hph]
    split <;> rfl

/-- Without a goroutine no event changes anything. -/
theorem run_uninitialized (b : Bool) (events : List Event) :
    ∀ s : Sys, s.phase = .Uninitialized → run b s events = s := by
  induction events with
  | nil => intro s _; rfl
  | cons ev rest ih =>
    intro s hs
    have hstep : step b s ev = s := by
      cases ev <;> simp [step, hs]
    show run b (step b s ev) rest = s
    rw [hstep]
    exact ih s hs

/-- The sign of `time.Until(t)` is the sign of `t - now`, saturation or not. -/
theorem timeUntil_sign (t now : Int) :
    (timeUntil t now < 0 ↔ t - now < 0) ∧ (0 < timeUntil t now ↔ 0 < t - now)
      ∧ (timeUntil t now = 0 ↔ t - now = 0) := by
  have hmin : minDuration = -9223372036854775808 := by norm_num [minDuration]
  have hmax : maxDuration = 9223372036854775807 := by norm_num [maxDuration]
  unfold timeUntil
  rw [hmin, hmax]
  by_cases h1 : t - now < -9223372036854775808
  · rw [if_pos h1]
    omega
  · rw [if_neg h1]
    by_cases h2 : 9223372036854775807 < t - now
    · rw [if_pos h2]
      omega
    · rw [if_neg h2]
      omega

/-- Start-up with the start time in the past: the started mode, with the
counter at `int(math.Abs(duration.Seconds()))`. -/
theorem onReady_neg (st : Int) (wage : Float64) (d : Int) (hd : d < 0) :
    onReady st wage d =
      { timer := { startTime := st, hourlyWage := wage,
                   elpasedSeconds := intOfFloat (mathAbs (durationSeconds d)) }
        phase := .Accruing
        title := .text "💴 読み込み中"
        pendingQuit := false } := by
  have h1 : ¬ 0 < d := by omega
  simp [onReady, h1, hd, updateStatusForStartedWork, NewWorkTimer]

/-- Inside the range of a `Duration`, `time.Until(t)` is `t - now`. -/
theorem timeUntil_eq_sub (t now : Int) (h1 : minDuration ≤ t - now) (h2 : t - now ≤ maxDuration) :
    timeUntil t now = t - now := by
  unfold timeUntil
  rw [if_neg (by omega), if_neg (by omega)]

/-- Start-up with the start time in the future: the not-started mode. -/
theorem onReady_pos (st : Int) (wage : Float64) (d : Int) (hd : 0 < d) :
    onReady st wage d =
      { timer := { startTime := st, hourlyWage := wage, elpasedSeconds := 0 }
        phase := .WaitingForStart
        title := .text "勤務開始前"
        pendingQuit := false } := by
  simp [onReady, hd, updateStatusForNotStartedWork, NewWorkTimer]

/-- C6 (amended): the start-up selection as a function of
`d = time.Until(startTime)`, which has the sign of `startTime - now` and is
`startTime - now` whenever that fits a `Duration`. For `d < 0` the started mode
is entered with the counter at `int(math.Abs(d.Seconds()))`, which is not
negative and is the whole seconds of `|d|` whenever `|d|` is less than 2^24
seconds (120 for a launch 120 seconds late); for `d > 0` the not-started mode
is entered, the title is the before-shift text and the counter is 0; for
`d = 0` neither mode is entered, no goroutine is launched and no event ever
changes the state. Exactly one of the three cases applies. -/
theorem onReady_selection (st : Int) (wage : Float64) (d : Int) :
    (d < 0 → onReady st wage d =
          { timer := { startTime := st, hourlyWage := wage,
                       elpasedSeconds := intOfFloat (mathAbs (durationSeconds d)) }
            phase := .Accruing
            title := .text "💴 読み込み中"
            pendingQuit := false }
        ∧ 0 ≤ intOfFloat (mathAbs (durationSeconds d)))
      ∧ (d < 0 → |d| < 16777216000000000 → onReady st wage d =
        { timer := { startTime := st, hourlyWage := wage, elpasedSeconds := |d| / 1000000000 }
          phase := .Accruing
          title := .text "💴 読み込み中"
          pendingQuit := false })
      ∧ (0 < d → onReady st wage d =
        { timer := { startTime := st, hourlyWage := wage, elpasedSeconds := 0 }
          phase := .WaitingForStart
          title := .text "勤務開始前"
          pendingQuit := false })
      ∧ (d = 0 → onReady st wage d =
          { timer := { startTime := st, hourlyWage := wage, elpasedSeconds := 0 }
            phase := .Uninitialized
            title := .text "💴 読み込み中"
            pendingQuit := false }
        ∧ ∀ (b : Bool) (events : List Event), run b (onReady st wage d) events = onReady st wage d)
      ∧ (onReady st wage (-120000000000)).timer.elpasedSeconds = 120
      ∧ ((d < 0 ∧ ¬ 0 < d ∧ ¬ d = 0) ∨ (¬ d < 0 ∧ 0 < d ∧ ¬ d = 0)
        ∨ (¬ d < 0 ∧ ¬ 0 < d ∧ d = 0))
      ∧ (∀ now : Int, (timeUntil st now < 0 ↔ st - now < 0)
        ∧ (0 < timeUntil st now ↔ 0 < st - now) ∧ (timeUntil st now = 0 ↔ st - now = 0)
        ∧ (minDuration ≤ st - now → st - now ≤ maxDuration → timeUntil st now = st - now)) := by
  refine ⟨fun hd => ⟨onReady_neg st wage d hd, catchUp_nonneg d⟩, ?_, onReady_pos st wage d,
    ?_, ?_, ?_, ?_⟩
  · intro hd hsmall
    rw [onReady_neg st wage d hd, catchUp_eq d hsmall]
  · intro hd
    have h0 : onReady st wage d =
          { timer := { startTime := st, hourlyWage := wage, elpasedSeconds := 0 }
            phase := .Uninitialized
            title := .text "💴 読み込み中"
            pendingQuit := false } := by
      simp [onReady, hd, NewWorkTimer]
    refine ⟨h0, ?_⟩
    intro b events
    apply run_uninitialized
    rw [h0]
  · rw [onReady_neg _ _ _ (by norm_num), catchUp_eq _ (by norm_num)]
    norm_num
  · omega
  · intro now
    have hs := timeUntil_sign st now
    exact ⟨hs.1, hs.2.1, hs.2.2, timeUntil_eq_sub st now⟩

/-- The three cases of C6 at concrete durations: 90.5 seconds late, 30 seconds
early, and exactly on time. -/
theorem onReady_selection_witness :
    (onReady 0 (.fin 1200) (-90500000000)).phase = .Accruing
      ∧ (onReady 0 (.fin 1200) (-90500000000)).timer.elpasedSeconds = 90
      ∧ (onReady 0 (.fin 1200) 30000000000).phase = .WaitingForStart
      ∧ (onReady 0 (.fin 1200) 30000000000).timer.elpasedSeconds = 0
      ∧ (onReady 0 (.fin 1200) 0).phase = .Uninitialized := by
  have h := onReady_selection 0 (.fin 1200) (-90500000000)
  have h2 := onReady_selection 0 (.fin 1200) 30000000000
  have h3 := onReady_selection 0 (.fin 1200) 0
  rw [h.2.1 (by norm_num) (by norm_num), h2.2.2.1 (by norm_num), (h3.2.2.2.1 rfl).1]
  norm_num

/-- C6 as first stated fails: for a start time 33554431.999999999 seconds
before now, `time.Until` is that difference, the started mode is entered, and
the counter is set to 33554432, while the whole seconds of the difference are
33554431. -/
theorem onReady_selection_counterexample :
    timeUntil 0 33554431999999999 = 0 - 33554431999999999
      ∧ (onReady 0 (.fin 1200) (timeUntil 0 33554431999999999)).phase = .Accruing
      ∧ (onReady 0 (.fin 1200) (timeUntil 0 33554431999999999)).timer.elpasedSeconds = 33554432
      ∧ |(0 - 33554431999999999 : Int)| / 1000000000 = 33554431
      ∧ (onReady 0 (.fin 1200) (timeUntil 0 33554431999999999)).timer.elpasedSeconds
          ≠ |(0 - 33554431999999999 : Int)| / 1000000000 := by
  have ht : timeUntil 0 33554431999999999 = -33554431999999999 := by
    rw [timeUntil_eq_sub _ _ (by norm_num [minDuration]) (by norm_num [maxDuration])]
    norm_num
  have hq : |(0 - 33554431999999999 : Int)| / 1000000000 = 33554431 := by norm_num
  rw [ht, onReady_neg _ _ _ (by norm_num), catchUp_rounds_up, hq]
  exact ⟨by norm_num, rfl, rfl, rfl, by norm_num⟩

/-- Every call of `calculateAndUpdateTitle` renders a label with an amount. -/
theorem calculateAndUpdateTitle_renders (w : WorkTimer) (h : Int) :
    ∃ label amount, calculateAndUpdateTitle w h = some (.earnings label amount) := by
  have hsome := calculateAndUpdateTitle_isSome w h
  unfold calculateAndUpdateTitle at hsome ⊢
  simp only at hsome ⊢
  split_ifs at hsome ⊢
  · exact ⟨_, _, rfl⟩
  · exact ⟨_, _, rfl⟩
  · exact ⟨_, _, rfl⟩
  · exact ⟨_, _, rfl⟩
  · simp at hsome

/-- A tick received by the accrual loop adds one to the counter and renders
an amount. -/
theorem step_tick_accruing (b : Bool) (s : Sys) (hour : Int) (hs : s.phase = .Accruing) :
    (step b s (.tick hour)).timer.elpasedSeconds = s.timer.elpasedSeconds + 1
      ∧ ∃ label amount, (step b s (.tick hour)).title = .earnings label amount := by
  obtain ⟨label, amount, hc⟩ := calculateAndUpdateTitle_renders
    { s.timer with elpasedSeconds := s.timer.elpasedSeconds + 1 } hour
  simp [step, hs, hc]

/-- C7: quit in the two states. In `Accruing` a click on quit moves the clock
to `Terminated`, and in `Terminated` no event changes the counter or the title.
In `WaitingForStart`, though, the goroutine receives from the timer alone: a
click on quit leaves the clock in `WaitingForStart`, and when the library
drops the unreceived click, the timer then starts the accrual loop and the
next tick increments the counter and renders an amount. -/
theorem quit_in_each_state (b : Bool) (st : Int) (wage : Float64) (d : Int) (hd : 0 < d)
    (hour : Int) :
    (∀ s : Sys, s.phase = .Accruing → (step b s .quitClicked).phase = .Terminated)
      ∧ (∀ (s : Sys) (events : List Event), s.phase = .Terminated → run b s events = s)
      ∧ (onReady st wage d).phase = .WaitingForStart
      ∧ (step b (onReady st wage d) .quitClicked).phase = .WaitingForStart
      ∧ (run false (onReady st wage d) [.quitClicked, .timerFired]).phase = .Accruing
      ∧ (run false (onReady st wage d) [.quitClicked, .timerFired, .tick hour]).timer.elpasedSeconds
          = 1
      ∧ ∃ label amount,
          (run false (onReady st wage d) [.quitClicked, .timerFired, .tick hour]).title
            = .earnings label amount := by
  have h0 := onReady_pos st wage d hd
  have h3 : run false (onReady st wage d) [.quitClicked, .timerFired, .tick hour]
      = step false
          { timer := { startTime := st, hourlyWage := wage, elpasedSeconds := 0 }
            phase := .Accruing
            title := .text "勤務開始前"
            pendingQuit := false } (.tick hour) := by
    rw [h0]; rfl
  refine ⟨?_, ?_, ?_, ?_, ?_, ?_, ?_⟩
  · intro s hs
    simp [step, hs]
  · intro s events
    induction events with
    | nil => intro _; rfl
    | cons ev rest ih =>
      intro hs
      have hstep : step b s ev = s := by
        cases ev <;> simp [step, hs]
      show run b (step b s ev) rest = s
      rw [hstep]
      exact ih hs
  · rw [h0]
  · rw [h0]; rfl
  · rw [h0]; rfl
  · rw [h3]
    exact (step_tick_accruing false _ hour rfl).1
  · rw [h3]
    exact (step_tick_accruing false _ hour rfl).2

/-- Witness of C7: a shift starting in 60 seconds, quit clicked while waiting,
then the timer and a tick at hour 10. -/
theorem quit_in_each_state_witness :
    (step false (onReady 0 (.fin 1200) 60000000000) .quitClicked).phase = .WaitingForStart
      ∧ (run false (onReady 0 (.fin 1200) 60000000000)
          [.quitClicked, .timerFired, .tick 10]).timer.elpasedSeconds = 1 :=
  ⟨(quit_in_each_state false 0 (.fin 1200) 60000000000 (by norm_num) 10).2.2.2.1,
    (quit_in_each_state false 0 (.fin 1200) 60000000000 (by norm_num) 10).2.2.2.2.2.1⟩

/-! ## Input: properties -/

/-- A wage line that does not parse is answered with a prompt and the loop
goes on with the next line. -/
theorem hourlyWageLoop_not_a_number (parseFloat : String → Option Float64) (startTime : Int)
    (text : String) (rest : List String) (h : parseFloat text = none) :
    hourlyWageLoop parseFloat startTime (text :: rest) =
      { hourlyWageLoop parseFloat startTime rest with
        printed := "数値で入力してください" :: (hourlyWageLoop parseFloat startTime rest).printed } := by
  simp [hourlyWageLoop, h]

/-- A wage line whose value satisfies `hourlyWage <= 0` is answered with a
prompt and the loop goes on with the next line. -/
theorem hourlyWageLoop_not_positive (parseFloat : String → Option Float64) (startTime : Int)
    (text : String) (rest : List String) (v : Float64) (h : parseFloat text = some v)
    (hv : Float64.le v (.fin 0) = true) :
    hourlyWageLoop parseFloat startTime (text :: rest) =
      { hourlyWageLoop parseFloat startTime rest with
        printed := "時給は0より大きい値を入力してください"
          :: (hourlyWageLoop parseFloat startTime rest).printed } := by
  simp [hourlyWageLoop, h, hv]

/-- The wage loop returns either from its last `return`, with the start time
it was given and a wage for which `hourlyWage <= 0` is false, or from the
failed `Scan`, with the zero time and the wage 0. -/
theorem hourlyWageLoop_result (parseFloat : String → Option Float64) (startTime : Int)
    (lines : List String) :
    ((hourlyWageLoop parseFloat startTime lines).completed = true
        ∧ (hourlyWageLoop parseFloat startTime lines).startTime = startTime
        ∧ Float64.le (hourlyWageLoop parseFloat startTime lines).hourlyWage (.fin 0) = false)
      ∨ ((hourlyWageLoop parseFloat startTime lines).completed = false
        ∧ (hourlyWageLoop parseFloat startTime lines).startTime = 0
        ∧ (hourlyWageLoop parseFloat startTime lines).hourlyWage = .fin 0) := by
  induction lines with
  | nil => right; simp [hourlyWageLoop]
  | cons text rest ih =>
    unfold hourlyWageLoop
    cases hp : parseFloat text with
    | none => simpa using ih
    | some v =>
      cases hv : Float64.le v (.fin 0) with
      | true => simpa [hv] using ih
      | false => left; simp [hv]

/-- The same for `getUserInput`. -/
theorem getUserInput_result (parseTime : String → Option Int)
    (parseFloat : String → Option Float64) (lines : List String) :
    ((getUserInput parseTime parseFloat lines).completed = true
        ∧ Float64.le (getUserInput parseTime parseFloat lines).hourlyWage (.fin 0) = false)
      ∨ ((getUserInput parseTime parseFloat lines).completed = false
        ∧ (getUserInput parseTime parseFloat lines).startTime = 0
        ∧ (getUserInput parseTime parseFloat lines).hourlyWage = .fin 0) := by
  unfold getUserInput
  rcases hs : startTimeLoop parseTime lines with ⟨out, _ | ⟨t, rest⟩⟩
  · right; simp
  · rcases hourlyWageLoop_result parseFloat t rest with h | h
    · left; simpa using ⟨h.1, h.2.2⟩
    · right; simpa using h

/-- The time until the zero `time.Time{}` is negative at any later instant,
and is the smallest duration once 2^63 nanoseconds have passed. -/
theorem timeUntil_zero (now : Int) (hnow : 0 < now) :
    timeUntil 0 now < 0 ∧ (2 ^ 63 ≤ now → timeUntil 0 now = -(2 ^ 63)) := by
  unfold timeUntil minDuration maxDuration
  norm_num
  constructor
  · split_ifs <;> omega
  · intro h
    split_ifs <;> omega

/-- C8: what the code does when the input stream ends before both values are
read. `getUserInput` returns the zero time and the wage 0, and `main` goes on
regardless: it builds a `WorkTimer` with them and, the zero time being in the
past, enters the started mode, with a catch-up of 9223372036 seconds at any
date later than 2^63 nanoseconds after the zero time. -/
theorem main_after_input_failure (parseTime : String → Option Int)
    (parseFloat : String → Option Float64) (lines : List String) (now : Int)
    (hfail : (getUserInput parseTime parseFloat lines).completed = false) (hnow : 0 < now) :
    (getUserInput parseTime parseFloat lines).startTime = 0
      ∧ (getUserInput parseTime parseFloat lines).hourlyWage = .fin 0
      ∧ (main parseTime parseFloat lines now).phase = .Accruing
      ∧ (main parseTime parseFloat lines now).timer
          = { startTime := 0, hourlyWage := .fin 0,
              elpasedSeconds := intOfFloat (mathAbs (durationSeconds (timeUntil 0 now))) }
      ∧ (2 ^ 63 ≤ now →
          (main parseTime parseFloat lines now).timer.elpasedSeconds = 9223372036) := by
  have hres : (getUserInput parseTime parseFloat lines).startTime = 0
      ∧ (getUserInput parseTime parseFloat lines).hourlyWage = .fin 0 := by
    rcases getUserInput_result parseTime parseFloat lines with h | h
    · rw [hfail] at h; simp at h
    · exact h.2
  have hlt := (timeUntil_zero now hnow).1
  have hmain : main parseTime parseFloat lines now
      = { timer := { startTime := 0, hourlyWage := .fin 0,
                     elpasedSeconds := intOfFloat (mathAbs (durationSeconds (timeUntil 0 now))) }
          phase := .Accruing
          title := .text "💴 読み込み中"
          pendingQuit := false } := by
    unfold main
    simp only [hres.1, hres.2]
    exact onReady_neg 0 (.fin 0) _ hlt
  refine ⟨hres.1, hres.2, ?_, ?_, ?_⟩
  · rw [hmain]
  · rw [hmain]
  · intro hbig
    rw [hmain, (timeUntil_zero now hnow).2 hbig]
    exact catchUp_minDuration

/-- Witness of C8: an empty standard input, read at 2^63 nanoseconds after the
zero time. -/
theorem main_after_input_failure_witness :
    (main (fun _ => none) (fun _ => none) [] (2 ^ 63)).phase = .Accruing
      ∧ (main (fun _ => none) (fun _ => none) [] (2 ^ 63)).timer.elpasedSeconds = 9223372036 :=
  ⟨(main_after_input_failure (fun _ => none) (fun _ => none) [] (2 ^ 63) rfl (by norm_num)).2.2.1,
    (main_after_input_failure (fun _ => none) (fun _ => none) [] (2 ^ 63) rfl
      (by norm_num)).2.2.2.2 (le_refl _)⟩

/-- C9: what the code does on the wage line `NaN`. `strconv.ParseFloat`
returns NaN without an error for it, `hourlyWage <= 0` is false for NaN, and so
`getUserInput` returns from its last `return` with a wage that is not a
positive number. -/
theorem getUserInput_accepts_nan (parseTime : String → Option Int)
    (parseFloat : String → Option Float64) (t : Int)
    (htime : parseTime "09:30" = some t) (hnan : parseFloat "NaN" = some .nan) :
    (getUserInput parseTime parseFloat ["09:30", "NaN"]).completed = true
      ∧ (getUserInput parseTime parseFloat ["09:30", "NaN"]).startTime = t
      ∧ (getUserInput parseTime parseFloat ["09:30", "NaN"]).hourlyWage = .nan
      ∧ ¬ ∃ q : ℚ, (getUserInput parseTime parseFloat ["09:30", "NaN"]).hourlyWage = .fin q
          ∧ 0 < q := by
  have hw : (getUserInput parseTime parseFloat ["09:30", "NaN"]).hourlyWage = .nan := by
    simp [getUserInput, startTimeLoop, hourlyWageLoop, htime, hnan, Float64.le]
  refine ⟨?_, ?_, hw, ?_⟩
  · simp [getUserInput, startTimeLoop, hourlyWageLoop, htime, hnan, Float64.le]
  · simp [getUserInput, startTimeLoop, hourlyWageLoop, htime, hnan, Float64.le]
  · rw [hw]
    rintro ⟨q, hq, _⟩
    cases hq

/-- Witness of C9 with parsers that know the two lines. -/
theorem getUserInput_accepts_nan_witness :
    (getUserInput (fun s => if s = "09:30" then some 34200000000000 else none)
        (fun s => if s = "NaN" then some .nan else none) ["09:30", "NaN"]).completed = true
      ∧ (getUserInput (fun s => if s = "09:30" then some 34200000000000 else none)
        (fun s => if s = "NaN" then some .nan else none) ["09:30", "NaN"]).hourlyWage = .nan :=
  ⟨(getUserInput_accepts_nan (fun s => if s = "09:30" then some 34200000000000 else none)
      (fun s => if s = "NaN" then some .nan else none) 34200000000000 (by simp) (by simp)).1,
    (getUserInput_accepts_nan (fun s => if s = "09:30" then some 34200000000000 else none)
      (fun s => if s = "NaN" then some .nan else none) 34200000000000 (by simp) (by simp)).2.2.1⟩

end MoneyTicker
